import Mathlib

/-!
Verification of the mock-stock service (`src/main.py`) against its
natural-language specification.

Shallow embedding conventions:
* timestamps (Python `datetime` values) are modelled as abstract instants of
  type `Nat`, ordered as the underlying datetimes; `isoformat` renders an
  instant as its ISO-8601 text;
* the random sources (`random.randint`, `faker`) are modelled as explicit
  input streams `Nat → _` consumed in program order;
* `ORDER BY RANDOM()` is modelled by quantifying over an arbitrary
  permutation `perm` of the stored table;
* each `async` endpoint is modelled as a pure function from its inputs (and
  the random streams) to the data it streams / persists; the background
  webhook dispatcher is modelled as the trace of events it performs.
-/

namespace MockStock

/-- Rendering of a timestamp instant as its ISO-8601 text
(`datetime.isoformat()` in the source); instants are abstract, so the
rendering is the canonical injective one. -/
def isoformat (t : Nat) : String := toString t

/-- A row of the `Stock` table:
`Stock(id INTEGER PRIMARY KEY AUTOINCREMENT, sku TEXT, value INT, modified_since DATETIME)`. -/
structure StockRecord where
  id : Nat
  sku : String
  value : Nat
  modified : Nat
deriving DecidableEq, Repr

/-- A tuple built by `change_stock_randomly`, in the source's tuple order
`(sku, randint(0, 200), date, stock_id)`. -/
structure UpdateTuple where
  sku : String
  value : Nat
  modified : Nat
  id : Nat
deriving DecidableEq, Repr

/-! ### Record Generator (`generate_random_data`, src/main.py lines 46-62) -/

/-- One generated row before the id is assigned by `AUTOINCREMENT`:
the tuple `(sku, randint(0, 200), date)` of the source. -/
structure GenRow where
  sku : String
  value : Nat
  modified : Nat
deriving DecidableEq, Repr

/-- Sizes of the insertion batches of `generate_random_data`:
`ii = math.ceil(amount / offset)`, `left = amount % offset`, and the loop
body uses `_offset = left` on the final iteration (`i + 1 == ii`) and
`_offset = offset` otherwise. -/
def batchSizes (amount offset : Nat) : List Nat :=
  (List.range ((amount + offset - 1) / offset)).map fun i =>
    if i + 1 = (amount + offset - 1) / offset then amount % offset else offset

/-- Total number of rows generated (and persisted) by `generate_random_data`. -/
def totalGenerated (amount offset : Nat) : Nat :=
  (batchSizes amount offset).sum

/-- The `t`-th record of `generate_random_data`, as the pair
(persisted tuple, yielded tuple).  Per record the source draws one date and
one sku, then calls `randint(0, 200)` twice: once in
`data.append((sku, randint(0, 200), date))` (persisted) and once in
`yield (sku, randint(0, 200), date)` (streamed), so the value stream `vals`
is consumed at positions `2*t` and `2*t + 1`. -/
def genRecord (skus : Nat → String) (vals dates : Nat → Nat) (t : Nat) :
    GenRow × GenRow :=
  ({ sku := skus t, value := vals (2 * t), modified := dates t },
   { sku := skus t, value := vals (2 * t + 1), modified := dates t })

/-- The batches produced by `generate_random_data`: batch `i` holds the
records with global indices `i * offset, …, i * offset + len - 1` (all
batches before the last are full, so batch `i` starts at record
`i * offset`). -/
def generatedPairs (skus : Nat → String) (vals dates : Nat → Nat)
    (amount offset : Nat) : List (List (GenRow × GenRow)) :=
  (batchSizes amount offset).mapIdx fun i len =>
    (List.range len).map fun j => genRecord skus vals dates (i * offset + j)

/-- The rows persisted by `generate_random_data` (`executemany INSERT`),
in insertion order. -/
def persistedRows (skus : Nat → String) (vals dates : Nat → Nat)
    (amount offset : Nat) : List GenRow :=
  ((generatedPairs skus vals dates amount offset).flatten).map Prod.fst

/-- The rows yielded by `generate_random_data` to its caller, in order. -/
def streamedRows (skus : Nat → String) (vals dates : Nat → Nat)
    (amount offset : Nat) : List GenRow :=
  ((generatedPairs skus vals dates amount offset).flatten).map Prod.snd

/-- The `Stock` table produced by `POST /initialize-stock/`: the table is
cleared, the id sequence reset, and the persisted rows receive the
`AUTOINCREMENT` ids `1, 2, …` in insertion order (the endpoint always calls
`generate_random_data` with the default `offset = 1000`). -/
def initializedTable (skus : Nat → String) (vals dates : Nat → Nat)
    (amount : Nat) : List StockRecord :=
  (persistedRows skus vals dates amount 1000).mapIdx fun i r =>
    { id := i + 1, sku := r.sku, value := r.value, modified := r.modified }

/-- The CSV chunks streamed by `POST /initialize-stock/`: a header chunk,
then for each yielded row the line `_id,sku,value,date.isoformat()` with the
counter `_id` starting at 1. -/
def initializeStockStream (skus : Nat → String) (vals dates : Nat → Nat)
    (amount : Nat) : List String :=
  "id,sku,value,modified_since\n" ::
    (streamedRows skus vals dates amount 1000).mapIdx fun i s =>
      toString (i + 1) ++ "," ++ s.sku ++ "," ++ toString s.value ++ ","
        ++ isoformat s.modified ++ "\n"

/-! ### Mutator (`change_stock_randomly`, src/main.py lines 65-78) -/

/-- Result of `SELECT id, sku FROM Stock ORDER BY RANDOM() LIMIT ?` with
parameter `amount`, applied to `perm`, an arbitrary random ordering
(permutation) of the stored table.  Per SQLite semantics a negative `LIMIT`
imposes no upper bound on the number of rows returned. -/
def selectRandom (perm : List StockRecord) (amount : Int) : List StockRecord :=
  if amount < 0 then perm else perm.take amount.toNat

/-- The cursor loop of `change_stock_randomly`: for the `i`-th fetched row
`(stock_id, sku)` it draws a date (`fake.date_time_between`, stream
`randDate`) and a value (`randint(0, 200)`, stream `randVal`) and appends
the tuple `(sku, randint(0, 200), date, stock_id)` — note the sku is the one
read from the row, and the id is preserved. -/
def mutateFrom (randVal randDate : Nat → Nat) :
    Nat → List StockRecord → List UpdateTuple
  | _, [] => []
  | i, s :: ss =>
      { sku := s.sku, value := randVal i, modified := randDate i, id := s.id }
        :: mutateFrom randVal randDate (i + 1) ss

/-- `change_stock_randomly(db, amount)`: select up to `amount` rows in random
order, build the update tuples, and return them (the `executemany UPDATE`
applied to storage is `applyUpdates` below). -/
def changeStockRandomly (perm : List StockRecord) (amount : Int)
    (randVal randDate : Nat → Nat) : List UpdateTuple :=
  mutateFrom randVal randDate 0 (selectRandom perm amount)

/-- Modelled from the claim's words (spec §4.2), for comparison with
`changeStockRandomly`: the Mutator is claimed to assign each selected record
a NEW random sku drawn from a random sku stream, alongside the new value and
timestamp. -/
def changeStockClaimNewSku (perm : List StockRecord) (amount : Int)
    (randSku : Nat → String) (randVal randDate : Nat → Nat) : List UpdateTuple :=
  (selectRandom perm amount).mapIdx fun i s =>
    { sku := randSku i, value := randVal i, modified := randDate i, id := s.id }

/-- One step of the `executemany` loop of
`UPDATE Stock SET sku=?, value=?, modified_since=? WHERE id=?`:
the row whose id matches the tuple's id receives the tuple's sku, value and
date; every other row is untouched. -/
def applyUpdate (table : List StockRecord) (u : UpdateTuple) : List StockRecord :=
  table.map fun r =>
    if r.id = u.id then
      { id := r.id, sku := u.sku, value := u.value, modified := u.modified }
    else r

/-- The whole `executemany UPDATE` of `change_stock_randomly`, applying the
update tuples in order. -/
def applyUpdates (table : List StockRecord) (data : List UpdateTuple) :
    List StockRecord :=
  data.foldl applyUpdate table

/-! ### CSV streaming (`read_root`, src/main.py lines 92-108, and the
`stream_data` closures of `/trigger/` and `/initialize-stock/`) -/

/-- The ordering used by `SELECT … ORDER BY modified_since`. -/
def byModified (a b : StockRecord) : Prop := a.modified ≤ b.modified

instance : DecidableRel byModified :=
  fun a b => inferInstanceAs (Decidable (a.modified ≤ b.modified))

instance : IsTotal StockRecord byModified :=
  ⟨fun a b => Nat.le_total a.modified b.modified⟩

instance : IsTrans StockRecord byModified :=
  ⟨fun _ _ _ h h' => Nat.le_trans h h'⟩

/-- One CSV line of `GET /`: `",".join(str(r) for r in row) + "\n"` over the
columns `id, sku, value, modified_since` (the stored datetime text reads back
as its ISO-8601 form). -/
def csvRowLine (r : StockRecord) : String :=
  toString r.id ++ "," ++ r.sku ++ "," ++ toString r.value ++ ","
    ++ isoformat r.modified ++ "\n"

/-- The chunks streamed by `GET /`: the header, then one line per stored row,
rows ordered by `modified_since` (SQLite `ORDER BY`, modelled as a sort by
`byModified`). -/
def readRoot (table : List StockRecord) : List String :=
  "id,sku,value,modified_since\n"
    :: (List.insertionSort byModified table).map csvRowLine

/-- One CSV line of the `/trigger/` response:
`(str(s[3]), s[0], str(s[1]), s[2].isoformat())` joined by commas. -/
def csvLine (u : UpdateTuple) : String :=
  toString u.id ++ "," ++ u.sku ++ "," ++ toString u.value ++ ","
    ++ isoformat u.modified ++ "\n"

/-! ### Webhook Dispatcher (`send_requests`, src/main.py lines 19-43) -/

/-- JSON payload of one outbound POST:
`{"id": s[3], "sku": s[0], "value": s[1], "modified_since": s[2].isoformat()}`. -/
structure Payload where
  id : Nat
  sku : String
  value : Nat
  modified_since : String
deriving DecidableEq, Repr

/-- Payload built from an update tuple. -/
def payloadOf (s : UpdateTuple) : Payload :=
  { id := s.id, sku := s.sku, value := s.value,
    modified_since := isoformat s.modified }

/-- Consecutive chunks of size `c + 1` of a list (the helper behind the
grouping comprehension, for a provably positive step). -/
def chunksSucc (c : Nat) : List UpdateTuple → List (List UpdateTuple)
  | [] => []
  | x :: xs => ((x :: xs).take (c + 1)) :: chunksSucc c (xs.drop c)
termination_by l => l.length
decreasing_by simp [List.length_drop]; omega

/-- The grouping comprehension
`[stocks_to_update[i : i + concurrency] for i in range(0, len(stocks_to_update), concurrency)]`.
With `concurrency = 0` Python's `range` raises
`ValueError: range() arg 3 must not be zero`; otherwise the comprehension
yields the consecutive chunks of size `concurrency`. -/
def groupByConcurrency (concurrency : Nat) (stocks : List UpdateTuple) :
    Except String (List (List UpdateTuple)) :=
  if concurrency = 0 then Except.error "range() arg 3 must not be zero"
  else Except.ok (chunksSucc (concurrency - 1) stocks)

/-- Observable events of a dispatcher run, in the order the coroutine
performs them: issuing one POST, awaiting `asyncio.gather` over the `n`
in-flight requests of the current group, and `asyncio.sleep`. -/
inductive Event where
  | post (url : String) (p : Payload)
  | gather (n : Nat)
  | sleep (d : ℚ)
deriving DecidableEq, Repr

/-- Trace of one group of `send_requests`: one POST per tuple of the group
(all in flight together), then the `await asyncio.gather(*r)` barrier, then
`await asyncio.sleep(sleep)`. -/
def groupTrace (url : String) (d : ℚ) (g : List UpdateTuple) : List Event :=
  g.map (fun s => Event.post url (payloadOf s))
    ++ [Event.gather g.length, Event.sleep d]

/-- Trace of one pass over all groups, in list order. -/
def passTrace (url : String) (d : ℚ) (groups : List (List UpdateTuple)) :
    List Event :=
  (groups.map (groupTrace url d)).flatten

/-- `send_requests(webhook_url, stocks_to_update, concurrency, sleep,
duplications_number)`: group the tuples, then run
`duplications_number + 1` sequential passes; the event trace is returned,
or the `ValueError` raised by the grouping when `concurrency = 0`. -/
def sendRequests (url : String) (stocks : List UpdateTuple)
    (concurrency : Nat) (d : ℚ) (dup : Nat) : Except String (List Event) :=
  match groupByConcurrency concurrency stocks with
  | Except.error e => Except.error e
  | Except.ok groups =>
      Except.ok (((List.range (dup + 1)).map fun _ => passTrace url d groups).flatten)

/-- The POST payloads of a trace, in order. -/
def postedPayloads : List Event → List Payload
  | [] => []
  | Event.post _ p :: es => p :: postedPayloads es
  | Event.gather _ :: es => postedPayloads es
  | Event.sleep _ :: es => postedPayloads es

/-- Number of `asyncio.sleep` suspensions in a trace. -/
def sleepCount : List Event → Nat
  | [] => 0
  | Event.sleep _ :: es => sleepCount es + 1
  | Event.post _ _ :: es => sleepCount es
  | Event.gather _ :: es => sleepCount es

/-! ### The `/trigger/` endpoint (`stock_trigger`, src/main.py lines 111-149) -/

/-- What `POST /trigger/` produces: the HTTP status of the streaming
response, the streamed CSV chunks, and — when a `webhook_url` was given —
the scheduled background `send_requests` task (modelled by its outcome). -/
structure TriggerResponse where
  status : Nat
  body : List String
  background : Option (Except String (List Event))
deriving Repr

/-- `stock_trigger`: mutate `number_to_change` random stocks, optionally
schedule the webhook replay as a background task, and stream the mutated
rows as CSV with a 200 response.  No form field is validated beyond its
type; in particular `concurrency = 0` is accepted. -/
def stockTrigger (perm : List StockRecord) (number_to_change : Int)
    (webhook_url : Option String) (concurrency : Nat) (sleep_ : ℚ)
    (dup : Nat) (randVal randDate : Nat → Nat) : TriggerResponse :=
  let stocks := changeStockRandomly perm number_to_change randVal randDate
  { status := 200
    body := "id,sku,value,modified_since\n" :: stocks.map csvLine
    background := webhook_url.map fun url =>
      sendRequests url stocks concurrency sleep_ dup }

example : batchSizes 1 1000 = [1] := by decide
example : batchSizes 1000 1000 = [0] := by decide
example : batchSizes 2500 1000 = [1000, 1000, 500] := by decide
example : batchSizes 2000 1000 = [1000, 0] := by decide
example : totalGenerated 2500 1000 = 2500 := by decide
example : totalGenerated 2000 1000 = 1000 := by decide

/-! ### Helper lemmas: Mutator -/

theorem mutateFrom_length (v d : Nat → Nat) :
    ∀ (i : Nat) (l : List StockRecord), (mutateFrom v d i l).length = l.length := by
  intro i l
  induction l generalizing i with
  | nil => rfl
  | cons s ss ih => simp [mutateFrom, ih]

theorem mutateFrom_map_id (v d : Nat → Nat) :
    ∀ (i : Nat) (l : List StockRecord),
      (mutateFrom v d i l).map UpdateTuple.id = l.map StockRecord.id := by
  intro i l
  induction l generalizing i with
  | nil => rfl
  | cons s ss ih => simp [mutateFrom, ih]

theorem mutateFrom_mem (v d : Nat → Nat) :
    ∀ (i : Nat) (l : List StockRecord) (u : UpdateTuple),
      u ∈ mutateFrom v d i l →
        ∃ r ∈ l, u.id = r.id ∧ u.sku = r.sku ∧ ∃ j, u.value = v j ∧ u.modified = d j := by
  intro i l
  induction l generalizing i with
  | nil => intro u hu; simp [mutateFrom] at hu
  | cons s ss ih =>
      intro u hu
      rcases List.mem_cons.1 hu with h | h
      · exact ⟨s, List.mem_cons_self _ _, by rw [h], by rw [h], i, by rw [h], by rw [h]⟩
      · obtain ⟨r, hr, h1, h2, j, h3, h4⟩ := ih (i + 1) u h
        exact ⟨r, List.mem_cons_of_mem _ hr, h1, h2, j, h3, h4⟩

theorem mutateFrom_get (v d : Nat → Nat) :
    ∀ (l : List StockRecord) (i j : Nat) (hj : j < l.length)
      (h : j < (mutateFrom v d i l).length),
      (mutateFrom v d i l).get ⟨j, h⟩ =
        { sku := (l.get ⟨j, hj⟩).sku, value := v (i + j),
          modified := d (i + j), id := (l.get ⟨j, hj⟩).id } := by
  intro l
  induction l with
  | nil => intro i j hj h; simp at hj
  | cons s ss ih =>
      intro i j hj h
      cases j with
      | zero => simp [mutateFrom]
      | succ j =>
          have h' : j < (mutateFrom v d (i + 1) ss).length := by
            rw [mutateFrom_length]
            simpa using hj
          have hj' : j < ss.length := by simpa using hj
          show (mutateFrom v d (i + 1) ss).get ⟨j, h'⟩ = _
          rw [ih (i + 1) j hj' h']
          have : i + 1 + j = i + (j + 1) := by omega
          rw [this]
          rfl

theorem selectRandom_natCast (perm : List StockRecord) (k : Nat) :
    selectRandom perm (k : Int) = perm.take k := by
  simp [selectRandom]

theorem selectRandom_neg (perm : List StockRecord) (k : Int) (hk : k < 0) :
    selectRandom perm k = perm := by
  simp [selectRandom, hk]

theorem selectRandom_all (perm : List StockRecord) (k : Int)
    (hk : (perm.length : Int) < k) : selectRandom perm k = perm := by
  unfold selectRandom
  rw [if_neg (by omega)]
  exact List.take_of_length_le (by omega)

/-! ### Helper lemmas: the `executemany UPDATE` -/

theorem applyUpdate_map_id (table : List StockRecord) (u : UpdateTuple) :
    (applyUpdate table u).map StockRecord.id = table.map StockRecord.id := by
  unfold applyUpdate
  rw [List.map_map]
  apply List.map_congr_left
  intro r _
  by_cases h : r.id = u.id <;> simp [h]

theorem applyUpdates_map_id (data : List UpdateTuple) :
    ∀ table : List StockRecord,
      (applyUpdates table data).map StockRecord.id = table.map StockRecord.id := by
  induction data with
  | nil => intro t; rfl
  | cons u ds ih =>
      intro t
      show (applyUpdates (applyUpdate t u) ds).map _ = _
      rw [ih, applyUpdate_map_id]

theorem applyUpdates_length (data : List UpdateTuple) (table : List StockRecord) :
    (applyUpdates table data).length = table.length := by
  have h := applyUpdates_map_id data table
  have := congrArg List.length h
  simpa using this

theorem applyUpdates_not_selected (data : List UpdateTuple) :
    ∀ (table : List StockRecord) (r : StockRecord), r ∈ table →
      r.id ∉ data.map UpdateTuple.id → r ∈ applyUpdates table data := by
  induction data with
  | nil => intro t r hr _; exact hr
  | cons u ds ih =>
      intro t r hr hnot
      rw [List.map_cons, List.mem_cons] at hnot
      push_neg at hnot
      show r ∈ applyUpdates (applyUpdate t u) ds
      apply ih _ r _ hnot.2
      unfold applyUpdate
      exact List.mem_map.2 ⟨r, hr, by rw [if_neg hnot.1]⟩

/-! ### Claim C1 -/

/-- C1: the claim says `/initialize-stock/` with `amount = N` produces exactly
`N` rows, the final batch having size `B = 1000` when `N` is divisible by `B`.
The code contradicts this: on the final loop iteration it uses
`_offset = amount % offset`, which is `0` when `N` is divisible by `B`, so for
`N = 1000` the batch sizes are `[0]`, no row is generated or persisted, and
the resulting table is empty instead of holding rows with ids `1..1000`. -/
theorem C1_generator_shortfall :
    batchSizes 1000 1000 = [0] ∧
    totalGenerated 1000 1000 = 0 ∧
    initializedTable (fun _ => "X") (fun _ => 0) (fun _ => 0) 1000 = [] :=
  ⟨rfl, rfl, rfl⟩

/-! ### Claim C2 -/

/-- C2 (counterexample): the claim says the Mutator assigns each selected
record a NEW random sku.  On the one-row table with sku `"5901234123457"`,
the code returns the OLD sku unchanged (it reads `sku` from the selected row
and writes the same value back), and its output differs from the
claim-modelled Mutator `changeStockClaimNewSku` that draws the fresh sku
`"9999999999999"` from the random sku stream. -/
theorem C2_counterexample :
    (changeStockRandomly [⟨1, "5901234123457", 5, 10⟩] 1
        (fun _ => 7) (fun _ => 20)).map UpdateTuple.sku = ["5901234123457"] ∧
    changeStockRandomly [⟨1, "5901234123457", 5, 10⟩] 1
        (fun _ => 7) (fun _ => 20) ≠
      changeStockClaimNewSku [⟨1, "5901234123457", 5, 10⟩] 1
        (fun _ => "9999999999999") (fun _ => 7) (fun _ => 20) := by
  exact ⟨rfl, by decide⟩

/-- C2 (amended): for every stored table, random ordering `perm` of it, and
count `k`, the Mutator selects `min k` (row count) records without
replacement, PRESERVES each selected record's id and sku, and assigns it the
new random value (in `[0, 200]` as the `randint(0, 200)` stream is) and the
new random timestamp drawn for its position; the returned records carry
exactly these field values. -/
theorem C2_mutator_fields (table perm : List StockRecord) (hperm : perm.Perm table)
    (k : Nat) (randVal randDate : Nat → Nat) (hval : ∀ i, randVal i ≤ 200) :
    (changeStockRandomly perm (k : Int) randVal randDate).length = min k table.length ∧
    (∀ u ∈ changeStockRandomly perm (k : Int) randVal randDate, u.value ≤ 200) ∧
    (∀ (j : Nat) (h : j < (changeStockRandomly perm (k : Int) randVal randDate).length),
      ∃ r, r ∈ table ∧
        ((changeStockRandomly perm (k : Int) randVal randDate).get ⟨j, h⟩).id = r.id ∧
        ((changeStockRandomly perm (k : Int) randVal randDate).get ⟨j, h⟩).sku = r.sku ∧
        ((changeStockRandomly perm (k : Int) randVal randDate).get ⟨j, h⟩).value = randVal j ∧
        ((changeStockRandomly perm (k : Int) randVal randDate).get ⟨j, h⟩).modified = randDate j) := by
  refine ⟨?_, ?_, ?_⟩
  · unfold changeStockRandomly
    rw [mutateFrom_length, selectRandom_natCast, List.length_take, hperm.length_eq]
  · intro u hu
    unfold changeStockRandomly at hu
    obtain ⟨r, _, _, _, j, hv, _⟩ := mutateFrom_mem randVal randDate 0 _ u hu
    rw [hv]
    exact hval j
  · intro j h
    have h' : j < (mutateFrom randVal randDate 0 (selectRandom perm (k : Int))).length := h
    have hj : j < (selectRandom perm (k : Int)).length := by
      rw [mutateFrom_length] at h'
      exact h'
    refine ⟨(selectRandom perm (k : Int)).get ⟨j, hj⟩, ?_, ?_⟩
    · apply hperm.subset
      have hsub : selectRandom perm (k : Int) ⊆ perm := by
        rw [selectRandom_natCast]
        exact List.take_subset k perm
      exact hsub (List.get_mem _ j hj)
    · have heq : (changeStockRandomly perm (k : Int) randVal randDate).get ⟨j, h⟩ =
          { sku := ((selectRandom perm (k : Int)).get ⟨j, hj⟩).sku,
            value := randVal (0 + j), modified := randDate (0 + j),
            id := ((selectRandom perm (k : Int)).get ⟨j, hj⟩).id } :=
        mutateFrom_get randVal randDate (selectRandom perm (k : Int)) 0 j hj h
      rw [heq]
      simp

/-- C2 (witness for the amended theorem). -/
theorem C2_mutator_fields_witness :
    (changeStockRandomly [⟨1, "a", 5, 10⟩] ((1 : Nat) : Int)
      (fun _ => 7) (fun _ => 20)).length = min 1 1 :=
  (C2_mutator_fields [⟨1, "a", 5, 10⟩] [⟨1, "a", 5, 10⟩] (List.Perm.refl _) 1
    (fun _ => 7) (fun _ => 20) (by intro i; show (7 : Nat) ≤ 200; decide)).1

/-! ### Claim C3 -/

/-- C3: the claim says each CSV row streamed by `/initialize-stock/` equals
the freshly persisted record.  The code draws `randint(0, 200)` twice per
record — `data.append((sku, randint(0, 200), date))` is persisted while
`yield (sku, randint(0, 200), date)` is streamed — so with `amount = 1` and
the value stream returning 5 then 7, the persisted row has value 5 while the
streamed CSV line carries value 7. -/
theorem C3_stream_persist_mismatch :
    (persistedRows (fun _ => "X") (fun n => if n = 0 then 5 else 7)
        (fun _ => 0) 1 1000).map GenRow.value = [5] ∧
    (streamedRows (fun _ => "X") (fun n => if n = 0 then 5 else 7)
        (fun _ => 0) 1 1000).map GenRow.value = [7] ∧
    initializedTable (fun _ => "X") (fun n => if n = 0 then 5 else 7)
        (fun _ => 0) 1 = [⟨1, "X", 5, 0⟩] ∧
    initializeStockStream (fun _ => "X") (fun n => if n = 0 then 5 else 7)
        (fun _ => 0) 1 = ["id,sku,value,modified_since\n", "1,X,7,0\n"] :=
  ⟨rfl, rfl, rfl, rfl⟩

/-! ### Claim C6 -/

/-- C6: for every `k` exceeding the current number of stored rows, the
Mutator returns exactly the current row count of records (the SQL `LIMIT`
caps the selection by availability) and the function is total — no error is
raised. -/
theorem C6_mutator_capped (table perm : List StockRecord) (hperm : perm.Perm table)
    (k : Int) (randVal randDate : Nat → Nat)
    (hk : (table.length : Int) < k) :
    (changeStockRandomly perm k randVal randDate).length = table.length := by
  unfold changeStockRandomly
  rw [mutateFrom_length,
    selectRandom_all perm k (by rw [hperm.length_eq]; exact hk)]
  exact hperm.length_eq

/-- C6 (witness). -/
theorem C6_mutator_capped_witness :
    (changeStockRandomly [⟨1, "a", 5, 10⟩] 5 (fun _ => 0) (fun _ => 0)).length = 1 :=
  C6_mutator_capped [⟨1, "a", 5, 10⟩] [⟨1, "a", 5, 10⟩] (List.Perm.refl _) 5
    (fun _ => 0) (fun _ => 0) (by decide)

/-! ### Claim C8 -/

/-- C8: the Mutator's `executemany UPDATE` preserves the id of every row
(selected or not) — the list of ids after the batch equals the list before,
so no row is inserted or deleted — and leaves every non-selected row (one
whose id is hit by no update tuple) unchanged in every field. -/
theorem C8_mutator_frame (table : List StockRecord) (data : List UpdateTuple) :
    (applyUpdates table data).map StockRecord.id = table.map StockRecord.id ∧
    (applyUpdates table data).length = table.length ∧
    ∀ r ∈ table, r.id ∉ data.map UpdateTuple.id → r ∈ applyUpdates table data :=
  ⟨applyUpdates_map_id data table, applyUpdates_length data table,
    fun r hr hnot => applyUpdates_not_selected data table r hr hnot⟩

/-- C8 (witness): updating id 2 leaves the row with id 1 in place unchanged. -/
theorem C8_mutator_frame_witness :
    (⟨1, "a", 5, 10⟩ : StockRecord) ∈
      applyUpdates [⟨1, "a", 5, 10⟩, ⟨2, "b", 6, 11⟩] [⟨"c", 9, 12, 2⟩] :=
  (C8_mutator_frame [⟨1, "a", 5, 10⟩, ⟨2, "b", 6, 11⟩] [⟨"c", 9, 12, 2⟩]).2.2
    ⟨1, "a", 5, 10⟩ (by decide) (by decide)

/-! ### Claim C9 -/

/-- C9: the CSV streamed by `GET /` starts with the header chunk
`id,sku,value,modified_since`, has exactly one line per stored row
(so `rows + 1` chunks in total), and its data lines render the stored rows
ordered by `modified_since` ascending. -/
theorem C9_read_root (table : List StockRecord) :
    (readRoot table).length = table.length + 1 ∧
    (readRoot table).head? = some "id,sku,value,modified_since\n" ∧
    ∃ rows, rows.Perm table ∧ List.Sorted byModified rows ∧
      readRoot table = "id,sku,value,modified_since\n" :: rows.map csvRowLine := by
  refine ⟨?_, rfl, List.insertionSort byModified table,
    List.perm_insertionSort byModified table,
    List.sorted_insertionSort byModified table, rfl⟩
  simp [readRoot, (List.perm_insertionSort byModified table).length_eq]

/-! ### Claim C10 -/

/-- C10: a negative `number_to_change` reaches SQLite as a negative `LIMIT`,
which imposes no cap, so `change_stock_randomly` selects and updates every
stored record and returns all rows (ids of the whole table, in the random
order), completing without error. -/
theorem C10_negative_limit (perm : List StockRecord) (k : Int)
    (randVal randDate : Nat → Nat) (hk : k < 0) :
    (changeStockRandomly perm k randVal randDate).length = perm.length ∧
    (changeStockRandomly perm k randVal randDate).map UpdateTuple.id
      = perm.map StockRecord.id := by
  unfold changeStockRandomly
  rw [selectRandom_neg perm k hk]
  exact ⟨mutateFrom_length randVal randDate 0 perm,
    mutateFrom_map_id randVal randDate 0 perm⟩

/-- C10 (witness). -/
theorem C10_negative_limit_witness :
    (changeStockRandomly [⟨1, "a", 5, 10⟩, ⟨2, "b", 6, 11⟩] (-3)
        (fun _ => 0) (fun _ => 0)).length = 2 ∧
    (changeStockRandomly [⟨1, "a", 5, 10⟩, ⟨2, "b", 6, 11⟩] (-3)
        (fun _ => 0) (fun _ => 0)).map UpdateTuple.id = [1, 2] := by
  have h := C10_negative_limit [⟨1, "a", 5, 10⟩, ⟨2, "b", 6, 11⟩] (-3)
    (fun _ => 0) (fun _ => 0) (by decide)
  exact ⟨h.1, h.2⟩

/-! ### Helper lemmas: Dispatcher grouping -/

theorem chunksSucc_nil (c : Nat) : chunksSucc c [] = [] := by
  rw [chunksSucc]

theorem chunksSucc_cons (c : Nat) (x : UpdateTuple) (xs : List UpdateTuple) :
    chunksSucc c (x :: xs) = ((x :: xs).take (c + 1)) :: chunksSucc c (xs.drop c) := by
  rw [chunksSucc]

theorem chunksSucc_induction (c : Nat) {P : List UpdateTuple → Prop} (h0 : P [])
    (hstep : ∀ x xs, P (xs.drop c) → P (x :: xs)) : ∀ xs, P xs := by
  have key : ∀ (n : Nat) (xs : List UpdateTuple), xs.length = n → P xs := by
    intro n
    induction n using Nat.strongRecOn with
    | ind n ih =>
        intro xs hn
        cases xs with
        | nil => exact h0
        | cons x xs =>
            refine hstep x xs (ih (xs.drop c).length ?_ _ rfl)
            rw [List.length_cons] at hn
            rw [List.length_drop]
            omega
  intro xs
  exact key xs.length xs rfl

theorem chunksSucc_flatten (c : Nat) : ∀ xs, (chunksSucc c xs).flatten = xs := by
  refine chunksSucc_induction c ?_ ?_
  · rw [chunksSucc_nil]; rfl
  · intro x xs ih
    rw [chunksSucc_cons, List.flatten_cons, ih, List.take_succ_cons,
      List.cons_append, List.take_append_drop]

theorem chunksSucc_length (c : Nat) :
    ∀ xs, (chunksSucc c xs).length = (xs.length + c) / (c + 1) := by
  refine chunksSucc_induction c ?_ ?_
  · rw [chunksSucc_nil]
    simp [Nat.div_eq_of_lt (Nat.lt_succ_self c)]
  · intro x xs ih
    rw [chunksSucc_cons, List.length_cons, ih, List.length_drop, List.length_cons]
    have h1 : xs.length + 1 + c = xs.length + (c + 1) := by omega
    rw [h1, Nat.add_div_right _ (Nat.succ_pos c)]
    rcases Nat.le_total xs.length c with h | h
    · rw [Nat.sub_eq_zero_of_le h,
        Nat.div_eq_of_lt (by omega), Nat.div_eq_of_lt (by omega)]
    · rw [Nat.sub_add_cancel h]

theorem chunksSucc_ne_nil (c : Nat) (x : UpdateTuple) (xs : List UpdateTuple) :
    chunksSucc c (x :: xs) ≠ [] := by
  rw [chunksSucc_cons]
  exact List.cons_ne_nil _ _

theorem chunksSucc_mem_length (c : Nat) :
    ∀ xs, ∀ g ∈ chunksSucc c xs, 1 ≤ g.length ∧ g.length ≤ c + 1 := by
  refine chunksSucc_induction c ?_ ?_
  · intro g hg
    rw [chunksSucc_nil] at hg
    simp at hg
  · intro x xs ih g hg
    rw [chunksSucc_cons] at hg
    rcases List.mem_cons.1 hg with h | h
    · rw [h, List.length_take, List.length_cons]
      omega
    · exact ih g h

theorem chunksSucc_dropLast (c : Nat) :
    ∀ xs, ∀ g ∈ (chunksSucc c xs).dropLast, g.length = c + 1 := by
  refine chunksSucc_induction c ?_ ?_
  · intro g hg
    rw [chunksSucc_nil] at hg
    simp at hg
  · intro x xs ih g hg
    rw [chunksSucc_cons] at hg
    cases hd : chunksSucc c (xs.drop c) with
    | nil =>
        rw [hd] at hg
        simp at hg
    | cons r rs =>
        rw [hd, List.dropLast_cons₂] at hg
        rcases List.mem_cons.1 hg with h | h
        · have hne : xs.drop c ≠ [] := by
            intro hnil
            rw [hnil, chunksSucc_nil] at hd
            exact List.cons_ne_nil r rs hd.symm
          have hlen : c < xs.length := by
            by_contra hcon
            push_neg at hcon
            exact hne (List.drop_eq_nil_of_le hcon)
          rw [h, List.length_take, List.length_cons]
          omega
        · rw [← hd] at h
          exact ih g h

/-! ### Helper lemmas: trace observations -/

theorem postedPayloads_append (a b : List Event) :
    postedPayloads (a ++ b) = postedPayloads a ++ postedPayloads b := by
  induction a with
  | nil => rfl
  | cons e es ih => cases e <;> simp [postedPayloads, ih]

theorem postedPayloads_posts (url : String) (g : List UpdateTuple) :
    postedPayloads (g.map fun s => Event.post url (payloadOf s)) = g.map payloadOf := by
  induction g with
  | nil => rfl
  | cons s ss ih => simp [postedPayloads, ih]

theorem postedPayloads_groupTrace (url : String) (d : ℚ) (g : List UpdateTuple) :
    postedPayloads (groupTrace url d g) = g.map payloadOf := by
  unfold groupTrace
  rw [postedPayloads_append, postedPayloads_posts]
  simp [postedPayloads]

theorem postedPayloads_flatten (L : List (List Event)) :
    postedPayloads L.flatten = (L.map postedPayloads).flatten := by
  induction L with
  | nil => rfl
  | cons l L ih =>
      rw [List.flatten_cons, postedPayloads_append, ih, List.map_cons,
        List.flatten_cons]

theorem postedPayloads_passTrace (url : String) (d : ℚ)
    (groups : List (List UpdateTuple)) :
    postedPayloads (passTrace url d groups) = groups.flatten.map payloadOf := by
  unfold passTrace
  rw [postedPayloads_flatten, List.map_map, List.map_flatten]
  exact congrArg List.flatten
    (List.map_congr_left fun g _ => postedPayloads_groupTrace url d g)

theorem sum_map_const_nat {α : Type} (l : List α) (k : Nat) :
    (l.map fun _ => k).sum = l.length * k := by
  induction l with
  | nil => simp
  | cons a l ih => rw [List.map_cons, List.sum_cons, ih, List.length_cons,
      Nat.succ_mul, Nat.add_comm]

theorem sleepCount_append (a b : List Event) :
    sleepCount (a ++ b) = sleepCount a + sleepCount b := by
  induction a with
  | nil => simp [sleepCount]
  | cons e es ih =>
      cases e with
      | post u p => simp [sleepCount, ih]
      | gather n => simp [sleepCount, ih]
      | sleep d =>
          simp [sleepCount, ih]
          omega

theorem sleepCount_posts (url : String) (g : List UpdateTuple) :
    sleepCount (g.map fun s => Event.post url (payloadOf s)) = 0 := by
  induction g with
  | nil => rfl
  | cons s ss ih => simp [sleepCount, ih]

theorem sleepCount_groupTrace (url : String) (d : ℚ) (g : List UpdateTuple) :
    sleepCount (groupTrace url d g) = 1 := by
  unfold groupTrace
  rw [sleepCount_append, sleepCount_posts]
  rfl

theorem sleepCount_flatten (L : List (List Event)) :
    sleepCount L.flatten = (L.map sleepCount).sum := by
  induction L with
  | nil => rfl
  | cons l L ih => rw [List.flatten_cons, sleepCount_append, ih, List.map_cons,
      List.sum_cons]

theorem sleepCount_passTrace (url : String) (d : ℚ)
    (groups : List (List UpdateTuple)) :
    sleepCount (passTrace url d groups) = groups.length := by
  unfold passTrace
  rw [sleepCount_flatten, List.map_map]
  have h : groups.map (sleepCount ∘ groupTrace url d) = groups.map fun _ => 1 :=
    List.map_congr_left fun g _ => sleepCount_groupTrace url d g
  rw [h, sum_map_const_nat, Nat.mul_one]

theorem groupTrace_getLast (url : String) (d : ℚ) (g : List UpdateTuple) :
    (groupTrace url d g).getLast? = some (Event.sleep d) := by
  unfold groupTrace
  rw [show ([Event.gather g.length, Event.sleep d] : List Event)
        = [Event.gather g.length] ++ [Event.sleep d] from rfl,
    ← List.append_assoc, List.getLast?_concat]

theorem getLast_flatten_of_all (a : Event) :
    ∀ L : List (List Event), L ≠ [] → (∀ l ∈ L, l.getLast? = some a) →
      L.flatten.getLast? = some a := by
  intro L
  induction L with
  | nil => intro h _; exact absurd rfl h
  | cons l L ih =>
      intro _ hall
      cases L with
      | nil =>
          rw [List.flatten_cons, List.flatten_nil, List.append_nil]
          exact hall l (List.mem_cons_self _ _)
      | cons l' L' =>
          rw [List.flatten_cons]
          have h2 : (l' :: L').flatten.getLast? = some a :=
            ih (List.cons_ne_nil _ _) fun x hx => hall x (List.mem_cons_of_mem _ hx)
          rw [List.getLast?_append, h2]
          rfl

theorem sendRequests_ok (url : String) (stocks : List UpdateTuple) (c : Nat)
    (d : ℚ) (dup : Nat) (hc : c ≠ 0) :
    sendRequests url stocks c d dup =
      Except.ok (((List.range (dup + 1)).map fun _ =>
        passTrace url d (chunksSucc (c - 1) stocks)).flatten) := by
  unfold sendRequests groupByConcurrency
  rw [if_neg hc]

/-! ### Claim C4 -/

/-- C4: for every record list, concurrency `c ≥ 1` and duplication count
`dup`, the dispatcher partitions the records into `⌈len/c⌉` consecutive
groups of size `c` (last group possibly smaller but never empty), and over
the `dup + 1` passes issues exactly `len * (dup + 1)` POSTs whose payloads
are, pass by pass and in record order, `{id, sku, value, modified_since}`
with `modified_since` the ISO-8601 text of the record's timestamp. -/
theorem C4_dispatcher (url : String) (stocks : List UpdateTuple) (c : Nat)
    (d : ℚ) (dup : Nat) (hc : 1 ≤ c) :
    ∃ groups tr,
      groupByConcurrency c stocks = Except.ok groups ∧
      sendRequests url stocks c d dup = Except.ok tr ∧
      groups.length = (stocks.length + c - 1) / c ∧
      groups.flatten = stocks ∧
      (∀ g ∈ groups, 1 ≤ g.length ∧ g.length ≤ c) ∧
      (∀ g ∈ groups.dropLast, g.length = c) ∧
      postedPayloads tr = ((List.range (dup + 1)).map fun _ =>
        stocks.map payloadOf).flatten ∧
      (postedPayloads tr).length = stocks.length * (dup + 1) := by
  have hc0 : c ≠ 0 := by omega
  have hc1 : c - 1 + 1 = c := by omega
  have hpay : postedPayloads (((List.range (dup + 1)).map fun _ =>
      passTrace url d (chunksSucc (c - 1) stocks)).flatten) =
      ((List.range (dup + 1)).map fun _ => stocks.map payloadOf).flatten := by
    rw [postedPayloads_flatten, List.map_map]
    refine congrArg List.flatten (List.map_congr_left fun i _ => ?_)
    show postedPayloads (passTrace url d (chunksSucc (c - 1) stocks)) = _
    rw [postedPayloads_passTrace, chunksSucc_flatten]
  refine ⟨chunksSucc (c - 1) stocks, _, ?_, sendRequests_ok url stocks c d dup hc0,
    ?_, chunksSucc_flatten (c - 1) stocks, ?_, ?_, hpay, ?_⟩
  · unfold groupByConcurrency
    rw [if_neg hc0]
  · rw [chunksSucc_length, hc1]
    congr 1
    omega
  · intro g hg
    have h := chunksSucc_mem_length (c - 1) stocks g hg
    omega
  · intro g hg
    have h := chunksSucc_dropLast (c - 1) stocks g hg
    omega
  · rw [hpay, List.length_flatten, List.map_map]
    have h : (List.range (dup + 1)).map
        (List.length ∘ fun _ => stocks.map payloadOf) =
        (List.range (dup + 1)).map fun _ => stocks.length := by
      refine List.map_congr_left fun i _ => ?_
      show (stocks.map payloadOf).length = stocks.length
      rw [List.length_map]
    rw [h, sum_map_const_nat, List.length_range, Nat.mul_comm]

/-- C4 (witness): three records with concurrency 2 split into the groups
`[2, 1]` whose concatenation is the original list. -/
theorem C4_dispatcher_witness :
    ∃ groups,
      groupByConcurrency 2
        [⟨"a", 1, 2, 10⟩, ⟨"b", 3, 4, 11⟩, ⟨"c", 5, 6, 12⟩] = Except.ok groups ∧
      groups.flatten = [⟨"a", 1, 2, 10⟩, ⟨"b", 3, 4, 11⟩, ⟨"c", 5, 6, 12⟩] ∧
      groups.length = 2 := by
  obtain ⟨groups, tr, h1, h2, h3, h4, h5, h6, h7, h8⟩ :=
    C4_dispatcher "http://w" [⟨"a", 1, 2, 10⟩, ⟨"b", 3, 4, 11⟩, ⟨"c", 5, 6, 12⟩]
      2 0 1 (by decide)
  exact ⟨groups, h1, h4, h3⟩

/-! ### Claim C5 -/

/-- C5: the claim says a dispatch request with `concurrency = 0` is rejected
with a validation failure.  The code performs no such validation: the
endpoint accepts the request and answers 200, and the scheduled background
`send_requests` task fails later with the `ValueError` that Python's
`range(0, len, 0)` raises — exactly the "failing only later inside the
background task" mode the claim excludes. -/
theorem C5_concurrency_zero :
    (stockTrigger [⟨1, "sku1", 5, 10⟩] 1 (some "http://w") 0 0 0
      (fun _ => 7) (fun _ => 20)).status = 200 ∧
    (stockTrigger [⟨1, "sku1", 5, 10⟩] 1 (some "http://w") 0 0 0
      (fun _ => 7) (fun _ => 20)).background =
      some (Except.error "range() arg 3 must not be zero") :=
  ⟨rfl, rfl⟩

/-! ### Claim C7 -/

/-- C7 (counterexample): the claim says the inter-group suspension happens
between consecutive groups but not after the final one.  With two records,
concurrency 1, delay 3 and no duplication the code's trace ends with
`sleep 3`: `asyncio.sleep` runs after every group, the final one included. -/
theorem C7_counterexample :
    sendRequests "http://w" [⟨"s1", 1, 2, 1⟩, ⟨"s2", 3, 4, 2⟩] 1 3 0 =
      Except.ok [Event.post "http://w" ⟨1, "s1", 1, "2"⟩, Event.gather 1,
        Event.sleep 3, Event.post "http://w" ⟨2, "s2", 3, "4"⟩, Event.gather 1,
        Event.sleep 3] ∧
    ([Event.post "http://w" ⟨1, "s1", 1, "2"⟩, Event.gather 1, Event.sleep 3,
      Event.post "http://w" ⟨2, "s2", 3, "4"⟩, Event.gather 1,
      Event.sleep 3] : List Event).getLast? = some (Event.sleep 3) := by
  constructor
  · rw [sendRequests_ok "http://w" [⟨"s1", 1, 2, 1⟩, ⟨"s2", 3, 4, 2⟩] 1 3 0
      (by decide)]
    simp [chunksSucc_cons, chunksSucc_nil, passTrace, groupTrace, payloadOf,
      isoformat]
    exact ⟨rfl, rfl⟩
  · rfl

/-- C7 (amended): for every run with `c ≥ 1`, the trace is exactly, for each
of the `dup + 1` sequential passes and for each group in list order: the
group's POSTs (all in flight together), then the completion barrier
(`asyncio.gather`) — so no later group's request starts before the current
group completes — then a suspension of `d` seconds.  The suspension follows
every group, including the final group of the final pass: a nonempty run's
last event is `sleep d`, and there are exactly `(dup + 1) * ⌈len/c⌉`
suspensions in total. -/
theorem C7_dispatcher_order (url : String) (stocks : List UpdateTuple)
    (c : Nat) (d : ℚ) (dup : Nat) (hc : 1 ≤ c) :
    ∃ groups tr,
      groupByConcurrency c stocks = Except.ok groups ∧
      sendRequests url stocks c d dup = Except.ok tr ∧
      tr = ((List.range (dup + 1)).map fun _ =>
        (groups.map fun g =>
          g.map (fun s => Event.post url (payloadOf s))
            ++ [Event.gather g.length, Event.sleep d]).flatten).flatten ∧
      sleepCount tr = (dup + 1) * groups.length ∧
      (stocks ≠ [] → tr.getLast? = some (Event.sleep d)) := by
  have hc0 : c ≠ 0 := by omega
  refine ⟨chunksSucc (c - 1) stocks, _, ?_,
    sendRequests_ok url stocks c d dup hc0, rfl, ?_, ?_⟩
  · unfold groupByConcurrency
    rw [if_neg hc0]
  · rw [sleepCount_flatten, List.map_map]
    have h : (List.range (dup + 1)).map
        (sleepCount ∘ fun _ => passTrace url d (chunksSucc (c - 1) stocks)) =
        (List.range (dup + 1)).map fun _ => (chunksSucc (c - 1) stocks).length :=
      List.map_congr_left fun i _ => sleepCount_passTrace url d _
    rw [h, sum_map_const_nat, List.length_range]
  · intro hne
    apply getLast_flatten_of_all
    · have : dup + 1 ≠ 0 := Nat.succ_ne_zero dup
      simp [List.range_eq_nil]
    · intro l hl
      obtain ⟨i, _, hi⟩ := List.mem_map.1 hl
      rw [← hi]
      show (passTrace url d (chunksSucc (c - 1) stocks)).getLast? = _
      unfold passTrace
      apply getLast_flatten_of_all
      · cases stocks with
        | nil => exact absurd rfl hne
        | cons x xs =>
            rw [chunksSucc_cons]
            simp
      · intro l' hl'
        obtain ⟨g, _, hg⟩ := List.mem_map.1 hl'
        rw [← hg]
        exact groupTrace_getLast url d g

/-- C7 (witness for the amended theorem): a singleton run's trace ends with
the suspension. -/
theorem C7_dispatcher_order_witness :
    ∃ groups tr,
      groupByConcurrency 1 [⟨"s1", 1, 2, 1⟩] = Except.ok groups ∧
      sendRequests "http://w" [⟨"s1", 1, 2, 1⟩] 1 3 0 = Except.ok tr ∧
      tr.getLast? = some (Event.sleep 3) := by
  obtain ⟨groups, tr, h1, h2, h3, h4, h5⟩ :=
    C7_dispatcher_order "http://w" [⟨"s1", 1, 2, 1⟩] 1 3 0 (by decide)
  exact ⟨groups, tr, h1, h2, h5 (by decide)⟩

end MockStock
